import Mathlib

/-!
Verification of the werewolf game server core (room state, role assignment,
phase controller, room registry) against its natural-language specification.
Python dictionaries are modelled as insertion-ordered association lists,
machine time as a natural-number parameter, and the socket emissions of the
phase controller as explicit outcome values returned by the resolution
functions.
-/

namespace Imitation

/-- Role enumeration from app/models.py. -/
inductive Role
  | villager
  | werewolf
  | seer
  | doctor
deriving DecidableEq

/-- Team enumeration from app/models.py. -/
inductive Team
  | town
  | mafia
deriving DecidableEq

/-- PlayerType enumeration from app/models.py. -/
inductive PlayerKind
  | human
  | ai
deriving DecidableEq

/-- GamePhase enumeration from app/models.py. -/
inductive GamePhase
  | lobby
  | day
  | night
  | voting
  | ended
deriving DecidableEq

/-- ROLE_TEAMS mapping from app/models.py. -/
def roleTeams : Role → Team
  | Role.villager => Team.town
  | Role.werewolf => Team.mafia
  | Role.seer => Team.town
  | Role.doctor => Team.town

/-- Player model from app/models.py. -/
structure Player where
  id : String
  name : String
  playerKind : PlayerKind
  isAlive : Bool := true
  isHost : Bool := false
  role : Option Role := none
  team : Option Team := none
deriving DecidableEq

/-- ChatMessage model from app/models.py (timestamp as a natural number). -/
structure ChatMessage where
  playerId : String
  playerName : String
  content : String
  timestamp : Nat
deriving DecidableEq

/-- First-match lookup in an association list, modelling dict.get. -/
def lookupA {α : Type} (l : List (String × α)) (k : String) : Option α :=
  (l.find? (fun e => decide (e.1 = k))).map (fun e => e.2)

/-- Dict assignment d[k] = v: replace the entry in place if the key is
present, otherwise append at the end (Python insertion-order semantics). -/
def insertA {α : Type} (l : List (String × α)) (k : String) (v : α) : List (String × α) :=
  if l.any (fun e => decide (e.1 = k)) then
    l.map (fun e => if e.1 = k then (k, v) else e)
  else
    l ++ [(k, v)]

/-- Dict deletion d.pop(k, None): drop the entry with the given key. -/
def removeA {α : Type} (l : List (String × α)) (k : String) : List (String × α) :=
  l.filter (fun e => decide (e.1 ≠ k))

/-- Key list of an association list. -/
def keysOf {α : Type} (l : List (String × α)) : List String :=
  l.map Prod.fst

/-- GameState from app/game/state.py.  The players dict and the two vote
dicts are insertion-ordered association lists; phase_ends_at is an absolute
time in an abstract Nat clock. -/
structure GameState where
  roomId : String
  phase : GamePhase := GamePhase.lobby
  players : List (String × Player) := []
  messages : List ChatMessage := []
  roundNumber : Nat := 0
  phaseEndsAt : Option Nat := none
  phaseDuration : Nat := 0
  votes : List (String × String) := []
  werewolfVotes : List (String × String) := []
  seerTarget : Option String := none
  doctorTarget : Option String := none
deriving DecidableEq

/-- GameState.clear_votes. -/
def clearVotes (g : GameState) : GameState :=
  { g with votes := [] }

/-- GameState.clear_night_actions. -/
def clearNightActions (g : GameState) : GameState :=
  { g with werewolfVotes := [], seerTarget := none, doctorTarget := none }

/-- GameState.submit_werewolf_vote.  Returns the bool result together with
the (possibly updated) state. -/
def submitWerewolfVote (g : GameState) (wolfId targetId : String) : Bool × GameState :=
  match lookupA g.players wolfId, lookupA g.players targetId with
  | some wolf, some target =>
    if !wolf.isAlive || !target.isAlive then (false, g)
    else if target.role = some Role.werewolf then (false, g)
    else (true, { g with werewolfVotes := insertA g.werewolfVotes wolfId targetId })
  | _, _ => (false, g)

/-- GameState.submit_seer_action. -/
def submitSeerAction (g : GameState) (seerId targetId : String) : Bool × GameState :=
  match lookupA g.players seerId, lookupA g.players targetId with
  | some seer, some target =>
    if !seer.isAlive || !target.isAlive then (false, g)
    else if seerId = targetId then (false, g)
    else (true, { g with seerTarget := some targetId })
  | _, _ => (false, g)

/-- GameState.submit_doctor_action. -/
def submitDoctorAction (g : GameState) (doctorId targetId : String) : Bool × GameState :=
  match lookupA g.players doctorId, lookupA g.players targetId with
  | some doctor, some target =>
    if !doctor.isAlive || !target.isAlive then (false, g)
    else (true, { g with doctorTarget := some targetId })
  | _, _ => (false, g)

/-- GameState.submit_vote. -/
def submitVote (g : GameState) (voterId targetId : String) : Bool × GameState :=
  match lookupA g.players voterId, lookupA g.players targetId with
  | some voter, some target =>
    if !voter.isAlive || !target.isAlive then (false, g)
    else if voterId = targetId then (false, g)
    else (true, { g with votes := insertA g.votes voterId targetId })
  | _, _ => (false, g)

/-- One step of the counts accumulation loop
counts[t] = counts.get(t, 0) + 1 (in-place update, append when absent). -/
def bumpCount : List (String × Nat) → String → List (String × Nat)
  | [], t => [(t, 1)]
  | e :: rest, t =>
    if e.1 = t then (e.1, e.2 + 1) :: rest else e :: bumpCount rest t

/-- The counts dict built by iterating over the tally values in order. -/
def tallyCounts (vals : List String) : List (String × Nat) :=
  vals.foldl bumpCount []

/-- GameState.get_vote_counts. -/
def getVoteCounts (g : GameState) : List (String × Nat) :=
  tallyCounts (g.votes.map Prod.snd)

/-- GameState.get_werewolf_vote_counts. -/
def getWerewolfVoteCounts (g : GameState) : List (String × Nat) :=
  tallyCounts (g.werewolfVotes.map Prod.snd)

/-- max(counts.values()) with 0 for the (never-used) empty case. -/
def maxCount (counts : List (String × Nat)) : Nat :=
  counts.foldl (fun a e => Nat.max a e.2) 0

/-- Shared plurality body of get_elimination_target and
get_werewolf_kill_target: the targets holding the maximum count, tie
(length greater than one) yields none, otherwise the single such target. -/
def pluralityFromCounts (counts : List (String × Nat)) : Option String :=
  let m := maxCount counts
  let withMax := (counts.filter (fun e => decide (e.2 = m))).map Prod.fst
  if 1 < withMax.length then none else withMax.head?

/-- GameState.get_werewolf_kill_target (early return on an empty votes dict,
then the plurality computation). -/
def getWerewolfKillTarget (g : GameState) : Option String :=
  if g.werewolfVotes = [] then none
  else pluralityFromCounts (getWerewolfVoteCounts g)

/-- GameState.get_elimination_target (early return on an empty counts dict,
then the plurality computation). -/
def getEliminationTarget (g : GameState) : Option String :=
  let counts := getVoteCounts g
  if counts = [] then none
  else pluralityFromCounts counts

/-- GameState.get_alive_werewolves. -/
def aliveWerewolves (g : GameState) : List Player :=
  (g.players.map Prod.snd).filter (fun p => p.isAlive && decide (p.role = some Role.werewolf))

/-- GameState.get_alive_town. -/
def aliveTown (g : GameState) : List Player :=
  (g.players.map Prod.snd).filter (fun p => p.isAlive && decide (p.team = some Team.town))

/-- GameState.check_town_wins. -/
def checkTownWins (g : GameState) : Bool :=
  decide ((aliveWerewolves g).length = 0)

/-- GameState.check_mafia_wins. -/
def checkMafiaWins (g : GameState) : Bool :=
  decide ((aliveTown g).length ≤ (aliveWerewolves g).length)

/-- GameState.check_win_condition. -/
def checkWinCondition (g : GameState) : Option Team :=
  if checkTownWins g then some Team.town
  else if checkMafiaWins g then some Team.mafia
  else none

/-- get_role_distribution from app/game/roles.py.  Python list
multiplication by a negative count yields the empty list, matching
truncated Nat subtraction. -/
def getRoleDistribution (playerCount : Nat) : List Role :=
  if playerCount ≤ 3 then
    Role.werewolf :: List.replicate (playerCount - 1) Role.villager
  else if playerCount ≤ 5 then
    Role.werewolf :: Role.seer :: List.replicate (playerCount - 2) Role.villager
  else
    Role.werewolf :: Role.werewolf :: Role.seer :: Role.doctor ::
      List.replicate (playerCount - 4) Role.villager

/-- The zip-assignment loop of assign_roles: players paired with roles get
role and derived team set; when the role list runs out the remaining
players are left untouched (zip truncation). -/
def assignZip : List (String × Player) → List Role → List (String × Player)
  | (k, p) :: ps, r :: rs =>
    (k, { p with role := some r, team := some (roleTeams r) }) :: assignZip ps rs
  | ps, [] => ps
  | [], _ :: _ => []

/-- assign_roles from app/game/roles.py, with the already-shuffled role list
passed explicitly (random.shuffle is a permutation of
get_role_distribution of the roster size). -/
def assignRoles (players : List (String × Player)) (shuffled : List Role) :
    List (String × Player) :=
  if players.length = 0 then players else assignZip players shuffled

/-- PHASE_DURATIONS.get(phase, 0) from app/game/phase.py. -/
def phaseDurations : GamePhase → Nat
  | GamePhase.day => 10
  | GamePhase.voting => 10
  | GamePhase.night => 10
  | _ => 0

/-- PhaseController._get_next_phase. -/
def nextPhase : GamePhase → GamePhase
  | GamePhase.day => GamePhase.voting
  | GamePhase.voting => GamePhase.night
  | GamePhase.night => GamePhase.day
  | _ => GamePhase.ended

/-- State mutation of PhaseController.transition_to: clear the tallies of
the entered phase, then set phase, duration and absolute deadline. -/
def transitionTo (now : Nat) (phase : GamePhase) (g : GameState) : GameState :=
  let g1 := if phase = GamePhase.voting then clearVotes g else g
  let g2 := if phase = GamePhase.night then clearNightActions g1 else g1
  let d := phaseDurations phase
  { g2 with
    phase := phase
    phaseDuration := d
    phaseEndsAt := if 0 < d then some (now + d) else none }

/-- target.is_alive = False on the entry of the players dict with the given
key (Python mutates the shared Player object held by the dict). -/
def markDead (ps : List (String × Player)) (tid : String) : List (String × Player) :=
  ps.map (fun e => if e.1 = tid then (e.1, { e.2 with isAlive := false }) else e)

/-- PhaseController._check_and_end_game: on a winner, move to ENDED with no
timer; otherwise leave the state alone.  The bool is the return value. -/
def checkAndEndGame (g : GameState) : GameState × Bool :=
  match checkWinCondition g with
  | none => (g, false)
  | some _ =>
    ({ g with phase := GamePhase.ended, phaseEndsAt := none, phaseDuration := 0 }, true)

/-- The player_eliminated emission of _resolve_votes: an explicit null
result on no majority, nothing on a vanished target, or the revealed
eliminated player. -/
inductive ElimOutcome
  | noMajority
  | targetMissing
  | eliminated (id name : String) (role : Option Role) (team : Option Team)
deriving DecidableEq

/-- PhaseController._resolve_votes: state after resolution, the emission,
and the game-ended return value.  The win condition is only consulted
after an actual elimination. -/
def resolveVotes (g : GameState) : GameState × ElimOutcome × Bool :=
  match getEliminationTarget g with
  | none => (g, ElimOutcome.noMajority, false)
  | some tid =>
    match lookupA g.players tid with
    | none => (g, ElimOutcome.targetMissing, false)
    | some t =>
      let g1 := { g with players := markDead g.players tid }
      let r := checkAndEndGame g1
      (r.1, ElimOutcome.eliminated t.id t.name t.role t.team, r.2)

/-- The private seer_result emission: recipient socket id and payload. -/
structure SeerDelivery where
  recipientId : String
  targetId : String
  targetName : String
  targetRole : Option Role
deriving DecidableEq

/-- One entry of the deaths list emitted in night_result. -/
structure DeathRecord where
  id : String
  name : String
  role : Option Role
deriving DecidableEq

/-- The loop locating the first alive player with Role SEER. -/
def findAliveSeer (g : GameState) : Option Player :=
  (g.players.map Prod.snd).find? (fun p => decide (p.role = some Role.seer) && p.isAlive)

/-- Step 3 of _resolve_night_actions: the private seer delivery, produced
only when the seer target is a truthy (non-empty) string and both an alive
seer and the target player are found. -/
def seerDeliveryOf (g : GameState) : Option SeerDelivery :=
  match g.seerTarget with
  | none => none
  | some st =>
    if st = "" then none
    else
      match findAliveSeer g, lookupA g.players st with
      | some s, some t =>
        some { recipientId := s.id, targetId := t.id, targetName := t.name, targetRole := t.role }
      | _, _ => none

/-- Steps 1-4 of PhaseController._resolve_night_actions: doctor protection,
werewolf plurality kill, seer delivery and the deaths list, before the win
check. -/
def resolveNightCore (g : GameState) :
    GameState × Option SeerDelivery × List DeathRecord :=
  let protectedId := g.doctorTarget
  let sd := seerDeliveryOf g
  match getWerewolfKillTarget g with
  | none => (g, sd, [])
  | some kt =>
    if kt = "" then (g, sd, [])
    else if protectedId = some kt then (g, sd, [])
    else
      match lookupA g.players kt with
      | none => (g, sd, [])
      | some t =>
        if t.isAlive then
          ({ g with players := markDead g.players kt }, sd,
            [{ id := t.id, name := t.name, role := t.role }])
        else (g, sd, [])

/-- Full _resolve_night_actions including the final win check. -/
def resolveNightActions (g : GameState) :
    GameState × Option SeerDelivery × List DeathRecord × Bool :=
  let r := resolveNightCore g
  let e := checkAndEndGame r.1
  (e.1, r.2.1, r.2.2, e.2)

/-- _resolve_votes restricted to its state and game-ended result. -/
def resolveVotesEnded (g : GameState) : GameState × Bool :=
  ((resolveVotes g).1, (resolveVotes g).2.2)

/-- _resolve_night_actions restricted to its state and game-ended result. -/
def resolveNightEnded (g : GameState) : GameState × Bool :=
  ((resolveNightActions g).1, (resolveNightActions g).2.2.2)

/-- The body of the deferred callback in _schedule_next_phase once it fires
against a live room: resolve the boundary of the phase being left, stop on
game end, otherwise bump the round on the NIGHT to DAY edge and enter the
next phase. -/
def scheduledStep (now : Nat) (g : GameState) : GameState :=
  let next := nextPhase g.phase
  let r :=
    if g.phase = GamePhase.voting then resolveVotesEnded g
    else if g.phase = GamePhase.night then resolveNightEnded g
    else (g, false)
  if r.2 then r.1
  else
    let g2 := if next = GamePhase.day then { r.1 with roundNumber := r.1.roundNumber + 1 } else r.1
    transitionTo now next g2

/-- PhaseController.start_game: only from LOBBY; assign roles, set the
round counter to 1, enter DAY. -/
def startGame (shuffled : List Role) (now : Nat) (g : GameState) : GameState × Bool :=
  if g.phase = GamePhase.lobby then
    let g1 := { g with players := assignRoles g.players shuffled }
    let g2 := { g1 with roundNumber := 1 }
    (transitionTo now GamePhase.day g2, true)
  else (g, false)

/-- The return dict of GameManager.disconnect_player. -/
structure DisconnectInfo where
  playerId : String
  playerName : String
  roomId : String
  newHostId : Option String
deriving DecidableEq

/-- GameManager from app/game/manager.py: the registry mapping room ids to
game states. -/
structure GameManager where
  games : List (String × GameState)
deriving DecidableEq

/-- GameManager.create_room, with the generated token passed explicitly. -/
def createRoom (m : GameManager) (rid : String) : GameManager :=
  { games := insertA m.games rid { roomId := rid } }

/-- GameManager.join_room: the joining player is host exactly when the
roster was empty; the bool reports room-found. -/
def joinRoom (m : GameManager) (rid pid pname : String) : GameManager × Bool :=
  match lookupA m.games rid with
  | none => (m, false)
  | some g =>
    let p : Player :=
      { id := pid, name := pname, playerKind := PlayerKind.human
        isHost := decide (g.players.length = 0) }
    ({ games := insertA m.games rid { g with players := insertA g.players pid p } }, true)

/-- GameManager.leave_room: remove the player; delete the room when it
becomes empty.  No host transfer happens here. -/
def leaveRoom (m : GameManager) (rid pid : String) : GameManager :=
  match lookupA m.games rid with
  | none => m
  | some g =>
    let g1 := { g with players := removeA g.players pid }
    if g1.players.length = 0 then { games := removeA m.games rid }
    else { games := insertA m.games rid g1 }

/-- GameManager.get_player_room: first room (in registry order) whose
roster contains the player id. -/
def getPlayerRoom (m : GameManager) (pid : String) : Option String :=
  (m.games.find? (fun e => (lookupA e.2.players pid).isSome)).map Prod.fst

/-- new_host = next(iter(game.players.values())); new_host.is_host = True:
make the first remaining roster entry host and report its player id. -/
def setFirstHost : List (String × Player) → List (String × Player) × Option String
  | [] => ([], none)
  | (k, p) :: rest => ((k, { p with isHost := true }) :: rest, some p.id)

/-- GameManager.disconnect_player.  The registry/room lookups after
get_player_room cannot fail (the found room contains the player); those
unreachable branches are modelled as no-ops. -/
def disconnectPlayer (m : GameManager) (pid : String) : GameManager × Option DisconnectInfo :=
  match getPlayerRoom m pid with
  | none => (m, none)
  | some rid =>
    match lookupA m.games rid with
    | none => (m, none)
    | some g =>
      match lookupA g.players pid with
      | none => (m, none)
      | some player =>
        let g1 := { g with players := removeA g.players pid }
        if g1.players.length = 0 then
          ({ games := removeA m.games rid },
            some { playerId := pid, playerName := player.name, roomId := rid, newHostId := none })
        else if player.isHost then
          let sh := setFirstHost g1.players
          ({ games := insertA m.games rid { g1 with players := sh.1 } },
            some { playerId := pid, playerName := player.name, roomId := rid, newHostId := sh.2 })
        else
          ({ games := insertA m.games rid g1 },
            some { playerId := pid, playerName := player.name, roomId := rid, newHostId := none })

/-- Number of roster entries holding the host flag. -/
def hostCountL (ps : List (String × Player)) : Nat :=
  (ps.filter (fun e => e.2.isHost)).length

/-- Number of players of a room holding the host flag. -/
def hostCount (g : GameState) : Nat :=
  hostCountL g.players

/-- Well-formedness of one room: unique player keys, and exactly one host
whenever the roster is non-empty. -/
def roomOk (g : GameState) : Prop :=
  (keysOf g.players).Nodup ∧ (g.players ≠ [] → hostCount g = 1)

instance (g : GameState) : Decidable (roomOk g) :=
  decidable_of_iff ((keysOf g.players).Nodup ∧ (g.players ≠ [] → hostCount g = 1)) Iff.rfl

/-- Well-formedness of the registry: unique room keys and every room ok. -/
def managerOk (m : GameManager) : Prop :=
  (keysOf m.games).Nodup ∧ ∀ e ∈ m.games, roomOk e.2

instance (m : GameManager) : Decidable (managerOk m) :=
  decidable_of_iff ((keysOf m.games).Nodup ∧ ∀ e ∈ m.games, roomOk e.2) Iff.rfl

/-- A player with a role and the derived team, as the tests build them. -/
def demoPlayer (pid pname : String) (r : Role) (alive : Bool) : Player :=
  { id := pid, name := pname, playerKind := PlayerKind.human
    isAlive := alive, role := some r, team := some (roleTeams r) }

/-- A bare room with the given roster. -/
def demoState (ps : List (String × Player)) : GameState :=
  { roomId := "test", players := ps }

lemma transitionTo_roundNumber (now : Nat) (p : GamePhase) (g : GameState) :
    (transitionTo now p g).roundNumber = g.roundNumber := by
  unfold transitionTo clearVotes clearNightActions
  split_ifs <;> rfl

lemma transitionTo_phase (now : Nat) (p : GamePhase) (g : GameState) :
    (transitionTo now p g).phase = p := by
  unfold transitionTo clearVotes clearNightActions
  split_ifs <;> rfl

lemma checkAndEndGame_roundNumber (g : GameState) :
    (checkAndEndGame g).1.roundNumber = g.roundNumber := by
  unfold checkAndEndGame
  cases checkWinCondition g <;> rfl

lemma resolveVotes_roundNumber (g : GameState) :
    (resolveVotes g).1.roundNumber = g.roundNumber := by
  unfold resolveVotes
  cases hE : getEliminationTarget g with
  | none => rfl
  | some tid =>
    cases hL : lookupA g.players tid with
    | none => simp [hL]
    | some t => simp [hL, checkAndEndGame_roundNumber]

lemma resolveNightCore_roundNumber (g : GameState) :
    (resolveNightCore g).1.roundNumber = g.roundNumber := by
  unfold resolveNightCore
  cases hK : getWerewolfKillTarget g with
  | none => rfl
  | some kt =>
    cases hL : lookupA g.players kt with
    | none => simp only [hL]; split_ifs <;> rfl
    | some t => simp only [hL]; split_ifs <;> rfl

lemma resolveNightActions_roundNumber (g : GameState) :
    (resolveNightActions g).1.roundNumber = g.roundNumber := by
  unfold resolveNightActions
  simpa [checkAndEndGame_roundNumber] using resolveNightCore_roundNumber g

/-- C9: phase entry (transition_to) clears the day-vote tallies exactly
when entering VOTING, the night-action state exactly when entering NIGHT,
nothing when entering DAY, and leaves roster, chat log and round counter
unchanged while setting only phase, phase duration and phase deadline. -/
theorem phase_entry_frame_spec : ∀ (now : Nat) (p : GamePhase) (g : GameState),
    (transitionTo now p g).players = g.players ∧
    (transitionTo now p g).messages = g.messages ∧
    (transitionTo now p g).roundNumber = g.roundNumber ∧
    (transitionTo now p g).roomId = g.roomId ∧
    (transitionTo now p g).phase = p ∧
    (transitionTo now p g).phaseDuration = phaseDurations p ∧
    (transitionTo now p g).phaseEndsAt =
      (if 0 < phaseDurations p then some (now + phaseDurations p) else none) ∧
    (transitionTo now p g).votes = (if p = GamePhase.voting then [] else g.votes) ∧
    (transitionTo now p g).werewolfVotes = (if p = GamePhase.night then [] else g.werewolfVotes) ∧
    (transitionTo now p g).seerTarget = (if p = GamePhase.night then none else g.seerTarget) ∧
    (transitionTo now p g).doctorTarget = (if p = GamePhase.night then none else g.doctorTarget) := by
  intro now p g
  unfold transitionTo clearVotes clearNightActions
  split_ifs <;> simp_all

/-- C10: each of the four submission methods, whenever it rejects (returns
false), leaves the game state completely unchanged. -/
theorem rejected_submission_unchanged : ∀ (g : GameState) (a b : String),
    ((submitVote g a b).1 = true ∨ (submitVote g a b).2 = g) ∧
    ((submitWerewolfVote g a b).1 = true ∨ (submitWerewolfVote g a b).2 = g) ∧
    ((submitSeerAction g a b).1 = true ∨ (submitSeerAction g a b).2 = g) ∧
    ((submitDoctorAction g a b).1 = true ∨ (submitDoctorAction g a b).2 = g) := by
  intro g a b
  refine ⟨?_, ?_, ?_, ?_⟩
  · unfold submitVote
    cases lookupA g.players a <;> cases lookupA g.players b <;> simp <;> split_ifs <;> simp
  · unfold submitWerewolfVote
    cases lookupA g.players a <;> cases lookupA g.players b <;> simp <;> split_ifs <;> simp
  · unfold submitSeerAction
    cases lookupA g.players a <;> cases lookupA g.players b <;> simp <;> split_ifs <;> simp
  · unfold submitDoctorAction
    cases lookupA g.players a <;> cases lookupA g.players b <;> simp <;> split_ifs <;> simp

/-- C3 counterexample: the claim predicts absent for a roster of one living
werewolf and one living villager, but check_win_condition returns MAFIA
there (parity already counts as a mafia win, as the claim's own general
clause and the repository's tests state). -/
theorem win_condition_parity_counterexample :
    checkWinCondition (demoState [("w1", demoPlayer "w1" "Wolf" Role.werewolf true),
      ("v1", demoPlayer "v1" "Villager" Role.villager true)]) = some Team.mafia ∧
    some Team.mafia ≠ (none : Option Team) := by
  exact ⟨by decide, by decide⟩

/-- C3 (amended): check_win_condition returns TOWN whenever zero living
players hold role WEREWOLF (including zero living players on both sides),
otherwise MAFIA whenever living werewolves are at least as many as living
town players, otherwise absent; in particular one living werewolf and one
living villager already yield MAFIA, as does the state after the villager
dies, and an all-dead roster yields TOWN. -/
theorem win_condition_spec :
    (∀ g : GameState, checkWinCondition g =
      if (aliveWerewolves g).length = 0 then some Team.town
      else if (aliveTown g).length ≤ (aliveWerewolves g).length then some Team.mafia
      else none) ∧
    checkWinCondition (demoState [("w1", demoPlayer "w1" "Wolf" Role.werewolf true),
      ("v1", demoPlayer "v1" "Villager" Role.villager true)]) = some Team.mafia ∧
    checkWinCondition (demoState [("w1", demoPlayer "w1" "Wolf" Role.werewolf true),
      ("v1", demoPlayer "v1" "Villager" Role.villager false)]) = some Team.mafia ∧
    checkWinCondition (demoState [("w1", demoPlayer "w1" "Wolf" Role.werewolf false),
      ("v1", demoPlayer "v1" "Villager" Role.villager false)]) = some Team.town := by
  refine ⟨?_, by decide, by decide, by decide⟩
  intro g
  unfold checkWinCondition checkTownWins checkMafiaWins
  split_ifs <;> simp_all

/-- C7: the round counter is set to 1 by start_game (which then enters the
first DAY without incrementing), phase entry never changes it, and the
scheduled phase step increments it by exactly 1 precisely on the
NIGHT-to-DAY edge (when the night resolution did not end the game) and
leaves it unchanged on every other edge. -/
theorem round_number_spec :
    (∀ (sh : List Role) (now : Nat) (g : GameState),
      (startGame sh now g).1.roundNumber =
        (if g.phase = GamePhase.lobby then 1 else g.roundNumber) ∧
      (startGame sh now g).1.phase =
        (if g.phase = GamePhase.lobby then GamePhase.day else g.phase)) ∧
    (∀ (now : Nat) (p : GamePhase) (g : GameState),
      (transitionTo now p g).roundNumber = g.roundNumber) ∧
    (∀ (now : Nat) (g : GameState),
      (scheduledStep now g).roundNumber =
        if g.phase = GamePhase.night ∧ (resolveNightEnded g).2 = false
        then g.roundNumber + 1 else g.roundNumber) := by
  refine ⟨?_, transitionTo_roundNumber, ?_⟩
  · intro sh now g
    unfold startGame
    split_ifs with h
    · exact ⟨by simpa using transitionTo_roundNumber now GamePhase.day _,
        by simpa using transitionTo_phase now GamePhase.day _⟩
    · exact ⟨rfl, rfl⟩
  · intro now g
    unfold scheduledStep resolveNightEnded resolveVotesEnded
    cases hp : g.phase <;>
      simp only [nextPhase, reduceCtorEq, if_true, if_false] <;>
      split_ifs <;>
      simp_all [transitionTo_roundNumber, resolveVotes_roundNumber,
        resolveNightActions_roundNumber, nextPhase]

/-- A room holding a single living werewolf. -/
def wolfSelfState : GameState :=
  demoState [("w1", demoPlayer "w1" "Wolf" Role.werewolf true)]

/-- A room holding a single living villager. -/
def villagerSelfState : GameState :=
  demoState [("v1", demoPlayer "v1" "Villager" Role.villager true)]

/-- C5 counterexample: the player w1 exists and is alive, yet
submit_werewolf_vote(w1, w1) fails and records nothing, because w1's role
is WEREWOLF and the cannot-target-werewolves check rejects the target. -/
theorem werewolf_self_vote_counterexample :
    lookupA wolfSelfState.players "w1" = some (demoPlayer "w1" "Wolf" Role.werewolf true) ∧
    (demoPlayer "w1" "Wolf" Role.werewolf true).isAlive = true ∧
    (submitWerewolfVote wolfSelfState "w1" "w1").1 = false ∧
    (submitWerewolfVote wolfSelfState "w1" "w1").2 = wolfSelfState := by
  exact ⟨by decide, by decide, by decide, by decide⟩

/-- C5 (amended): submit_werewolf_vote has no dedicated self-target check:
for a player that exists and is alive whose role is not WEREWOLF,
submit_werewolf_vote(w, w) succeeds and records the vote; but any target
whose role is WEREWOLF — the submitter itself included — is rejected by the
cannot-target-werewolves rule, so an actual werewolf can never pick itself. -/
theorem submit_werewolf_vote_self_spec : ∀ (g : GameState) (w : String) (p : Player),
    lookupA g.players w = some p → p.isAlive = true →
    (p.role ≠ some Role.werewolf →
      submitWerewolfVote g w w =
        (true, { g with werewolfVotes := insertA g.werewolfVotes w w })) ∧
    (p.role = some Role.werewolf → submitWerewolfVote g w w = (false, g)) := by
  intro g w p hl ha
  unfold submitWerewolfVote
  simp only [hl]
  refine ⟨fun hr => ?_, fun hr => ?_⟩ <;> simp [ha, hr]

/-- C5 witness: a living villager self-targets successfully, a living
werewolf self-targeting is rejected. -/
theorem submit_werewolf_vote_self_spec_witness :
    submitWerewolfVote villagerSelfState "v1" "v1" =
      (true, { villagerSelfState with
        werewolfVotes := insertA villagerSelfState.werewolfVotes "v1" "v1" }) ∧
    submitWerewolfVote wolfSelfState "w1" "w1" = (false, wolfSelfState) :=
  ⟨(submit_werewolf_vote_self_spec villagerSelfState "v1"
      (demoPlayer "v1" "Villager" Role.villager true) (by decide) (by decide)).1 (by decide),
   (submit_werewolf_vote_self_spec wolfSelfState "w1"
      (demoPlayer "w1" "Wolf" Role.werewolf true) (by decide) (by decide)).2 (by decide)⟩

/-- C6 counterexample: at roster size 0 the claimed length law fails:
get_role_distribution(0) returns a single WEREWOLF, not an empty list. -/
theorem role_distribution_zero_counterexample :
    (getRoleDistribution 0).length = 1 ∧ (getRoleDistribution 0).length ≠ 0 := by
  exact ⟨by decide, by decide⟩

lemma assignZip_assigned : ∀ (ps : List (String × Player)) (rs : List Role),
    ps.length ≤ rs.length →
    ∀ e ∈ assignZip ps rs, ∃ r, e.2.role = some r ∧ e.2.team = some (roleTeams r) := by
  intro ps
  induction ps with
  | nil =>
    intro rs h e he
    cases rs <;> simp [assignZip] at he
  | cons hd tl ih =>
    intro rs h e he
    obtain ⟨k, p⟩ := hd
    cases rs with
    | nil => simp at h
    | cons r rrs =>
      simp only [assignZip, List.mem_cons] at he
      rcases he with he | he
      · exact ⟨r, by simp [he], by simp [he]⟩
      · exact ih rrs (by simpa using h) e he

/-- C6 (amended): for every roster size N at least 1, get_role_distribution
returns exactly N roles matching the table (the N = 0 case instead returns
one werewolf, and assign_roles never reaches it because of its empty-roster
early return); and whenever assign_roles runs with at least as many
shuffled roles as players, every assigned player's team is the ROLE_TEAMS
image of its assigned role. -/
theorem role_distribution_spec :
    (∀ n : Nat, 1 ≤ n → (getRoleDistribution n).length = n) ∧
    (∀ n : Nat, n ≤ 3 →
      (getRoleDistribution n).count Role.werewolf = 1 ∧
      (getRoleDistribution n).count Role.seer = 0 ∧
      (getRoleDistribution n).count Role.doctor = 0 ∧
      (getRoleDistribution n).count Role.villager = n - 1) ∧
    (∀ n : Nat, 4 ≤ n → n ≤ 5 →
      (getRoleDistribution n).count Role.werewolf = 1 ∧
      (getRoleDistribution n).count Role.seer = 1 ∧
      (getRoleDistribution n).count Role.doctor = 0 ∧
      (getRoleDistribution n).count Role.villager = n - 2) ∧
    (∀ n : Nat, 6 ≤ n →
      (getRoleDistribution n).count Role.werewolf = 2 ∧
      (getRoleDistribution n).count Role.seer = 1 ∧
      (getRoleDistribution n).count Role.doctor = 1 ∧
      (getRoleDistribution n).count Role.villager = n - 4) ∧
    (∀ (ps : List (String × Player)) (rs : List Role), ps.length ≤ rs.length →
      ∀ e ∈ assignRoles ps rs, ∃ r, e.2.role = some r ∧ e.2.team = some (roleTeams r)) := by
  refine ⟨?_, ?_, ?_, ?_, ?_⟩
  · intro n h
    unfold getRoleDistribution
    split_ifs <;> simp <;> omega
  · intro n h
    unfold getRoleDistribution
    rw [if_pos h]
    simp [List.count_cons, List.count_replicate]
  · intro n h4 h5
    unfold getRoleDistribution
    rw [if_neg (by omega), if_pos h5]
    simp [List.count_cons, List.count_replicate]
  · intro n h
    unfold getRoleDistribution
    rw [if_neg (by omega), if_neg (by omega)]
    simp [List.count_cons, List.count_replicate]
  · intro ps rs h e he
    unfold assignRoles at he
    split_ifs at he with hz
    · rw [List.length_eq_zero] at hz
      subst hz
      simp at he
    · exact assignZip_assigned ps rs h e he

/-- A player before role assignment. -/
def basePlayer : Player := { id := "p1", name := "A", playerKind := PlayerKind.human }

/-- The player after being assigned SEER. -/
def assignedP : Player := { basePlayer with role := some Role.seer, team := some Team.town }

/-- C6 witness: the table at sizes 2, 5 and 7, and a concrete one-player
assignment whose team is the image of the assigned role. -/
theorem role_distribution_spec_witness :
    (getRoleDistribution 7).length = 7 ∧
    (getRoleDistribution 2).count Role.werewolf = 1 ∧
    (getRoleDistribution 5).count Role.villager = 3 ∧
    (getRoleDistribution 7).count Role.doctor = 1 ∧
    (∃ r, assignedP.role = some r ∧ assignedP.team = some (roleTeams r)) :=
  ⟨role_distribution_spec.1 7 (by decide),
   (role_distribution_spec.2.1 2 (by decide)).1,
   (role_distribution_spec.2.2.1 5 (by decide) (by decide)).2.2.2,
   (role_distribution_spec.2.2.2.1 7 (by decide)).2.2.1,
   role_distribution_spec.2.2.2.2 [("p1", basePlayer)] [Role.seer] (by decide)
     ("p1", assignedP) (by decide)⟩

/-- counts.get(t, 0): the recorded count of a target, 0 when absent. -/
def lookupCount (l : List (String × Nat)) (t : String) : Nat :=
  (lookupA l t).getD 0

lemma lookupA_cons {α : Type} (e : String × α) (l : List (String × α)) (k : String) :
    lookupA (e :: l) k = if e.1 = k then some e.2 else lookupA l k := by
  by_cases h : e.1 = k <;> simp [lookupA, List.find?_cons, h]

lemma mem_of_lookupA {α : Type} (l : List (String × α)) (k : String) (v : α) :
    lookupA l k = some v → (k, v) ∈ l := by
  induction l with
  | nil => intro h; simp [lookupA] at h
  | cons e rest ih =>
    intro h
    rw [lookupA_cons] at h
    by_cases he : e.1 = k
    · rw [if_pos he] at h
      obtain ⟨a, b⟩ := e
      cases he
      cases h
      exact List.mem_cons_self _ _
    · rw [if_neg he] at h
      exact List.mem_cons_of_mem _ (ih h)

lemma lookupA_of_mem_nodup {α : Type} (l : List (String × α)) (k : String) (v : α)
    (hnd : (keysOf l).Nodup) (hm : (k, v) ∈ l) : lookupA l k = some v := by
  induction l with
  | nil => simp at hm
  | cons e rest ih =>
    rw [lookupA_cons]
    have hnd' := List.nodup_cons.mp hnd
    rcases List.mem_cons.mp hm with rfl | hm'
    · simp
    · have hk : e.1 ≠ k := by
        intro he
        exact hnd'.1 (he ▸ List.mem_map_of_mem Prod.fst hm')
      rw [if_neg hk]
      exact ih hnd'.2 hm'

lemma lookupA_none_iff {α : Type} (l : List (String × α)) (k : String) :
    lookupA l k = none ↔ k ∉ keysOf l := by
  induction l with
  | nil => simp [lookupA, keysOf]
  | cons e rest ih =>
    rw [lookupA_cons]
    by_cases he : e.1 = k
    · simp [he, keysOf]
    · simp [he, keysOf, ih]
      intro h
      exact fun hk => he hk.symm

lemma lookupCount_cons (e : String × Nat) (l : List (String × Nat)) (u : String) :
    lookupCount (e :: l) u = if e.1 = u then e.2 else lookupCount l u := by
  by_cases h : e.1 = u <;> simp [lookupCount, lookupA_cons, h]

lemma bumpCount_lookupCount (l : List (String × Nat)) (t u : String) :
    lookupCount (bumpCount l t) u =
      if u = t then lookupCount l u + 1 else lookupCount l u := by
  induction l with
  | nil =>
    by_cases h : u = t
    · subst h
      simp [bumpCount, lookupCount_cons, lookupCount, lookupA]
    · have h2 : ¬ t = u := fun hh => h hh.symm
      simp [bumpCount, lookupCount_cons, lookupCount, lookupA, h, h2]
  | cons e rest ih =>
    by_cases het : e.1 = t
    · simp only [bumpCount, if_pos het]
      rw [lookupCount_cons, lookupCount_cons]
      by_cases heu : e.1 = u
      · have hut : u = t := heu.symm.trans het
        simp [heu, hut]
      · have hut : ¬ u = t := fun hh => heu (het.trans hh.symm)
        simp [heu, hut]
    · simp only [bumpCount, if_neg het]
      rw [lookupCount_cons, lookupCount_cons]
      by_cases heu : e.1 = u
      · have hut : ¬ u = t := fun hh => het (heu.trans hh)
        simp [heu, hut]
      · simp [heu, ih]

lemma bumpCount_keys (l : List (String × Nat)) (t : String) :
    keysOf (bumpCount l t) =
      if t ∈ keysOf l then keysOf l else keysOf l ++ [t] := by
  induction l with
  | nil => simp [bumpCount, keysOf]
  | cons e rest ih =>
    by_cases het : e.1 = t
    · have hin : t ∈ keysOf (e :: rest) := by
        simp only [keysOf, List.mem_map]
        exact ⟨e, List.mem_cons_self _ _, het⟩
      rw [if_pos hin]
      simp [bumpCount, het, keysOf]
    · have hmem : t ∈ keysOf (e :: rest) ↔ t ∈ keysOf rest := by
        simp only [keysOf, List.map_cons, List.mem_cons]
        constructor
        · rintro (h | h)
          · exact absurd h.symm het
          · exact h
        · exact Or.inr
      simp only [bumpCount, if_neg het]
      by_cases hm : t ∈ keysOf rest
      · rw [if_pos (hmem.mpr hm)]
        have ih' := ih
        rw [if_pos hm] at ih'
        simp only [keysOf, List.map_cons] at ih' ⊢
        rw [ih']
      · rw [if_neg (fun h => hm (hmem.mp h))]
        have ih' := ih
        rw [if_neg hm] at ih'
        simp only [keysOf, List.map_cons] at ih' ⊢
        rw [ih']
        simp

lemma bumpCount_nodup (l : List (String × Nat)) (t : String)
    (h : (keysOf l).Nodup) : (keysOf (bumpCount l t)).Nodup := by
  rw [bumpCount_keys]
  by_cases hm : t ∈ keysOf l
  · rwa [if_pos hm]
  · rw [if_neg hm]
    simp [List.nodup_append, h, hm]

lemma bumpCount_pos (l : List (String × Nat)) (t : String)
    (h : ∀ e ∈ l, 0 < e.2) : ∀ e ∈ bumpCount l t, 0 < e.2 := by
  induction l with
  | nil =>
    intro e he
    simp [bumpCount] at he
    simp [he]
  | cons f rest ih =>
    intro e he
    by_cases hf : f.1 = t
    · simp only [bumpCount, if_pos hf, List.mem_cons] at he
      rcases he with rfl | he
      · have := h f (List.mem_cons_self _ _); omega
      · exact h e (List.mem_cons_of_mem _ he)
    · simp only [bumpCount, if_neg hf, List.mem_cons] at he
      rcases he with rfl | he
      · exact h e (List.mem_cons_self _ _)
      · exact ih (fun x hx => h x (List.mem_cons_of_mem _ hx)) e he

lemma tally_fold_spec (vals : List String) : ∀ acc : List (String × Nat),
    (keysOf acc).Nodup → (∀ e ∈ acc, 0 < e.2) →
    (keysOf (vals.foldl bumpCount acc)).Nodup ∧
    (∀ e ∈ vals.foldl bumpCount acc, 0 < e.2) ∧
    (∀ u, lookupCount (vals.foldl bumpCount acc) u = lookupCount acc u + vals.count u) := by
  induction vals with
  | nil =>
    intro acc h1 h2
    exact ⟨h1, h2, fun u => by simp⟩
  | cons v vs ih =>
    intro acc h1 h2
    have hb := ih (bumpCount acc v) (bumpCount_nodup acc v h1) (bumpCount_pos acc v h2)
    refine ⟨by rw [List.foldl_cons]; exact hb.1, by rw [List.foldl_cons]; exact hb.2.1,
      fun u => ?_⟩
    rw [List.foldl_cons, hb.2.2 u, bumpCount_lookupCount, List.count_cons]
    by_cases huv : u = v
    · subst huv
      simp only [if_pos rfl, beq_self_eq_true, if_true]
      omega
    · have hvu : ¬ v = u := fun hh => huv hh.symm
      have hbv : (v == u) = false := by
        rw [beq_eq_false_iff_ne]
        exact hvu
      simp only [if_neg huv, hbv, Bool.false_eq_true, if_false]
      omega

lemma tally_nodup (vals : List String) : (keysOf (tallyCounts vals)).Nodup :=
  (tally_fold_spec vals [] (by simp [keysOf]) (by simp)).1

lemma tally_lookupCount (vals : List String) (u : String) :
    lookupCount (tallyCounts vals) u = vals.count u := by
  have := (tally_fold_spec vals [] (by simp [keysOf]) (by simp)).2.2 u
  simpa [tallyCounts, lookupCount, lookupA] using this

lemma tally_mem_count (vals : List String) : ∀ e ∈ tallyCounts vals, e.2 = vals.count e.1 := by
  intro e he
  have h1 : lookupA (tallyCounts vals) e.1 = some e.2 :=
    lookupA_of_mem_nodup _ _ _ (tally_nodup vals) (by
      obtain ⟨a, b⟩ := e; exact he)
  have := tally_lookupCount vals e.1
  rw [lookupCount, h1] at this
  simpa using this

lemma tally_mem_of_count_pos (vals : List String) (t : String)
    (h : 0 < vals.count t) : (t, vals.count t) ∈ tallyCounts vals := by
  have hc := tally_lookupCount vals t
  cases hl : lookupA (tallyCounts vals) t with
  | none => rw [lookupCount, hl] at hc; simp at hc; omega
  | some n =>
    rw [lookupCount, hl] at hc
    simp at hc
    subst hc
    exact mem_of_lookupA _ _ _ hl

lemma foldl_max_le_init (l : List (String × Nat)) (a : Nat) :
    a ≤ l.foldl (fun x e => Nat.max x e.2) a := by
  induction l generalizing a with
  | nil => simp
  | cons e rest ih =>
    rw [List.foldl_cons]
    exact le_trans (Nat.le_max_left a e.2) (ih _)

lemma foldl_max_le_of_mem (l : List (String × Nat)) (a : Nat) :
    ∀ e ∈ l, e.2 ≤ l.foldl (fun x e => Nat.max x e.2) a := by
  induction l generalizing a with
  | nil => simp
  | cons f rest ih =>
    intro e he
    rw [List.foldl_cons]
    rcases List.mem_cons.mp he with rfl | h'
    · exact le_trans (Nat.le_max_right a e.2) (foldl_max_le_init rest _)
    · exact ih _ e h'

lemma foldl_max_mem (l : List (String × Nat)) (a : Nat) :
    l.foldl (fun x e => Nat.max x e.2) a = a ∨
      ∃ e ∈ l, l.foldl (fun x e => Nat.max x e.2) a = e.2 := by
  induction l generalizing a with
  | nil => left; rfl
  | cons f rest ih =>
    rw [List.foldl_cons]
    rcases ih (Nat.max a f.2) with h | ⟨e, he, h⟩
    · rcases Nat.le_total a f.2 with hle | hle
      · right
        refine ⟨f, List.mem_cons_self _ _, ?_⟩
        rw [h, Nat.max_eq_max]
        exact Nat.max_eq_right hle
      · left
        rw [h, Nat.max_eq_max]
        exact Nat.max_eq_left hle
    · right
      exact ⟨e, List.mem_cons_of_mem _ he, h⟩

lemma maxCount_le (counts : List (String × Nat)) :
    ∀ e ∈ counts, e.2 ≤ maxCount counts :=
  foldl_max_le_of_mem counts 0

lemma maxCount_cases (counts : List (String × Nat)) :
    maxCount counts = 0 ∨ ∃ e ∈ counts, maxCount counts = e.2 :=
  foldl_max_mem counts 0

lemma plurality_unique (vals : List String) (t : String)
    (h0 : 0 < vals.count t)
    (hmax : ∀ u, u ≠ t → vals.count u < vals.count t) :
    pluralityFromCounts (tallyCounts vals) = some t := by
  have hmem : (t, vals.count t) ∈ tallyCounts vals := tally_mem_of_count_pos vals t h0
  have hub : ∀ e ∈ tallyCounts vals, e.2 ≤ vals.count t := by
    intro e he
    have hc := tally_mem_count vals e he
    by_cases h : e.1 = t
    · rw [hc, h]
    · rw [hc]; exact le_of_lt (hmax e.1 h)
  have hm : maxCount (tallyCounts vals) = vals.count t := by
    have h1 : vals.count t ≤ maxCount (tallyCounts vals) := maxCount_le _ _ hmem
    have h2 : maxCount (tallyCounts vals) ≤ vals.count t := by
      rcases maxCount_cases (tallyCounts vals) with h | ⟨e, he, h⟩
      · omega
      · rw [h]; exact hub e he
    omega
  have hfilter : ∀ e ∈ (tallyCounts vals).filter
      (fun e => decide (e.2 = maxCount (tallyCounts vals))), e = (t, vals.count t) := by
    intro e he
    rw [List.mem_filter] at he
    obtain ⟨hmem', hval⟩ := he
    have hv : e.2 = maxCount (tallyCounts vals) := of_decide_eq_true hval
    have hc := tally_mem_count vals e hmem'
    have ht : e.1 = t := by
      by_contra hne
      have := hmax e.1 hne
      omega
    obtain ⟨a, b⟩ := e
    simp only at ht hc hv
    rw [ht, hc, ht]
  have hmemf : (t, vals.count t) ∈ (tallyCounts vals).filter
      (fun e => decide (e.2 = maxCount (tallyCounts vals))) := by
    rw [List.mem_filter]
    exact ⟨hmem, by simp [hm]⟩
  have hknd : (keysOf ((tallyCounts vals).filter
      (fun e => decide (e.2 = maxCount (tallyCounts vals))))).Nodup :=
    (tally_nodup vals).sublist ((List.filter_sublist _).map Prod.fst)
  unfold pluralityFromCounts
  rcases hf : (tallyCounts vals).filter
      (fun e => decide (e.2 = maxCount (tallyCounts vals))) with _ | ⟨x, rest⟩
  · rw [hf] at hmemf; simp at hmemf
  · rcases rest with _ | ⟨y, rest'⟩
    · have hx : x = (t, vals.count t) := hfilter x (by rw [hf]; exact List.mem_cons_self _ _)
      simp [hf, hx]
    · exfalso
      have hx : x = (t, vals.count t) := hfilter x (by rw [hf]; simp)
      have hy : y = (t, vals.count t) := hfilter y (by rw [hf]; simp)
      rw [hf] at hknd
      simp [keysOf, hx, hy] at hknd

lemma plurality_tie (vals : List String) (t u : String)
    (hne : t ≠ u) (h0 : 0 < vals.count t)
    (heq : vals.count t = vals.count u)
    (hle : ∀ w, vals.count w ≤ vals.count t) :
    pluralityFromCounts (tallyCounts vals) = none := by
  have hmt : (t, vals.count t) ∈ tallyCounts vals := tally_mem_of_count_pos vals t h0
  have hmu : (u, vals.count u) ∈ tallyCounts vals :=
    tally_mem_of_count_pos vals u (heq ▸ h0)
  have hm : maxCount (tallyCounts vals) = vals.count t := by
    have h1 : vals.count t ≤ maxCount (tallyCounts vals) := maxCount_le _ _ hmt
    have h2 : maxCount (tallyCounts vals) ≤ vals.count t := by
      rcases maxCount_cases (tallyCounts vals) with h | ⟨e, he, h⟩
      · omega
      · rw [h, tally_mem_count vals e he]; exact hle e.1
    omega
  have hft : (t, vals.count t) ∈ (tallyCounts vals).filter
      (fun e => decide (e.2 = maxCount (tallyCounts vals))) := by
    rw [List.mem_filter]; exact ⟨hmt, by simp [hm]⟩
  have hfu : (u, vals.count u) ∈ (tallyCounts vals).filter
      (fun e => decide (e.2 = maxCount (tallyCounts vals))) := by
    rw [List.mem_filter]; exact ⟨hmu, by simp [hm, heq]⟩
  have hlen : 2 ≤ ((tallyCounts vals).filter
      (fun e => decide (e.2 = maxCount (tallyCounts vals)))).length := by
    rcases hf : (tallyCounts vals).filter
        (fun e => decide (e.2 = maxCount (tallyCounts vals))) with _ | ⟨x, rest⟩
    · rw [hf] at hft; simp at hft
    · rcases rest with _ | ⟨y, rest'⟩
      · exfalso
        rw [hf] at hft hfu
        simp only [List.mem_singleton] at hft hfu
        have hts : (t, vals.count t) = ((u, vals.count u) : String × Nat) :=
          hft.trans hfu.symm
        injection hts with h1 h2
        exact hne h1
      · rw [hf]
        simp only [List.length_cons]
        omega
  unfold pluralityFromCounts
  rw [if_pos]
  simpa using hlen

/-- C1: plurality-with-tie-to-none for both get_elimination_target and
get_werewolf_kill_target: empty tally yields absent, a unique maximum
yields that target, and two or more targets sharing the maximum yield
absent. -/
theorem plurality_target_spec : ∀ g : GameState,
    (g.votes = [] → getEliminationTarget g = none) ∧
    (g.werewolfVotes = [] → getWerewolfKillTarget g = none) ∧
    (∀ t, 0 < (g.votes.map Prod.snd).count t →
      (∀ u, u ≠ t → (g.votes.map Prod.snd).count u < (g.votes.map Prod.snd).count t) →
      getEliminationTarget g = some t) ∧
    (∀ t, 0 < (g.werewolfVotes.map Prod.snd).count t →
      (∀ u, u ≠ t → (g.werewolfVotes.map Prod.snd).count u <
        (g.werewolfVotes.map Prod.snd).count t) →
      getWerewolfKillTarget g = some t) ∧
    (∀ t u, t ≠ u → 0 < (g.votes.map Prod.snd).count t →
      (g.votes.map Prod.snd).count t = (g.votes.map Prod.snd).count u →
      (∀ w, (g.votes.map Prod.snd).count w ≤ (g.votes.map Prod.snd).count t) →
      getEliminationTarget g = none) ∧
    (∀ t u, t ≠ u → 0 < (g.werewolfVotes.map Prod.snd).count t →
      (g.werewolfVotes.map Prod.snd).count t = (g.werewolfVotes.map Prod.snd).count u →
      (∀ w, (g.werewolfVotes.map Prod.snd).count w ≤ (g.werewolfVotes.map Prod.snd).count t) →
      getWerewolfKillTarget g = none) := by
  intro g
  have hne : ∀ (l : List (String × String)) (t : String),
      0 < (l.map Prod.snd).count t → l ≠ [] := by
    intro l t h hl
    subst hl
    simp at h
  have htne : ∀ (l : List (String × String)) (t : String),
      0 < (l.map Prod.snd).count t → tallyCounts (l.map Prod.snd) ≠ [] := by
    intro l t h hl
    have := tally_mem_of_count_pos (l.map Prod.snd) t h
    rw [hl] at this
    simp at this
  refine ⟨?_, ?_, ?_, ?_, ?_, ?_⟩
  · intro h
    unfold getEliminationTarget getVoteCounts
    rw [h]
    simp [tallyCounts]
  · intro h
    unfold getWerewolfKillTarget
    rw [if_pos h]
  · intro t h0 hmax
    unfold getEliminationTarget getVoteCounts
    rw [if_neg (htne _ _ h0)]
    exact plurality_unique _ t h0 hmax
  · intro t h0 hmax
    unfold getWerewolfKillTarget getWerewolfVoteCounts
    rw [if_neg (hne _ _ h0)]
    exact plurality_unique _ t h0 hmax
  · intro t u hne' h0 heq hle
    unfold getEliminationTarget getVoteCounts
    rw [if_neg (htne _ _ h0)]
    exact plurality_tie _ t u hne' h0 heq hle
  · intro t u hne' h0 heq hle
    unfold getWerewolfKillTarget getWerewolfVoteCounts
    rw [if_neg (hne _ _ h0)]
    exact plurality_tie _ t u hne' h0 heq hle

/-- A room with empty vote tallies. -/
def gEmptyVotes : GameState := { roomId := "r" }

/-- A room whose day tally has a unique plurality target b. -/
def gUniqVotes : GameState := { roomId := "r", votes := [("a", "b"), ("c", "b"), ("d", "e")] }

/-- A room whose werewolf tally has a unique plurality target b. -/
def gUniqWolf : GameState :=
  { roomId := "r", werewolfVotes := [("a", "b"), ("c", "b"), ("d", "e")] }

/-- A room whose day tally is tied between b and e. -/
def gTieVotes : GameState := { roomId := "r", votes := [("a", "b"), ("c", "e")] }

/-- A room whose werewolf tally is tied between b and e. -/
def gTieWolf : GameState := { roomId := "r", werewolfVotes := [("a", "b"), ("c", "e")] }

/-- C1 witness: empty, unique-maximum and tied tallies for both queries. -/
theorem plurality_target_spec_witness :
    getEliminationTarget gEmptyVotes = none ∧
    getWerewolfKillTarget gEmptyVotes = none ∧
    getEliminationTarget gUniqVotes = some "b" ∧
    getWerewolfKillTarget gUniqWolf = some "b" ∧
    getEliminationTarget gTieVotes = none ∧
    getWerewolfKillTarget gTieWolf = none := by
  have huniq : ∀ u : String, u ≠ "b" →
      List.count u ["b", "b", "e"] < List.count "b" ["b", "b", "e"] := by
    intro u hu
    by_cases he : u = "e"
    · subst he; decide
    · have hnm : u ∉ (["b", "b", "e"] : List String) := by simp [hu, he]
      rw [List.count_eq_zero_of_not_mem hnm]
      decide
  have htie : ∀ w : String, List.count w ["b", "e"] ≤ List.count "b" ["b", "e"] := by
    intro w
    by_cases hb : w = "b"
    · subst hb; decide
    · by_cases he : w = "e"
      · subst he; decide
      · have hnm : w ∉ (["b", "e"] : List String) := by simp [hb, he]
        rw [List.count_eq_zero_of_not_mem hnm]
        decide
  refine ⟨(plurality_target_spec gEmptyVotes).1 rfl,
    (plurality_target_spec gEmptyVotes).2.1 rfl,
    (plurality_target_spec gUniqVotes).2.2.1 "b" (by decide) huniq,
    (plurality_target_spec gUniqWolf).2.2.2.1 "b" (by decide) huniq,
    (plurality_target_spec gTieVotes).2.2.2.2.1 "b" "e" (by decide) (by decide)
      (by decide) htie,
    (plurality_target_spec gTieWolf).2.2.2.2.2 "b" "e" (by decide) (by decide)
      (by decide) htie⟩

lemma resolveNightCore_delivery (g : GameState) :
    (resolveNightCore g).2.1 = seerDeliveryOf g := by
  unfold resolveNightCore
  cases hK : getWerewolfKillTarget g with
  | none => rfl
  | some kt =>
    cases hL : lookupA g.players kt with
    | none => simp only [hL]; split_ifs <;> rfl
    | some t => simp only [hL]; split_ifs <;> rfl

lemma lookupA_markDead (ps : List (String × Player)) (k : String) (t : Player)
    (h : lookupA ps k = some t) :
    lookupA (markDead ps k) k = some { t with isAlive := false } := by
  induction ps with
  | nil => simp [lookupA] at h
  | cons e rest ih =>
    rw [lookupA_cons] at h
    by_cases he : e.1 = k
    · rw [if_pos he] at h
      have ht : e.2 = t := by simpa using h
      simp only [markDead, List.map_cons, if_pos he]
      rw [lookupA_cons]
      simp [he, ht]
    · rw [if_neg he] at h
      simp only [markDead, List.map_cons, if_neg he]
      rw [lookupA_cons, if_neg he]
      exact ih h

lemma seerDeliveryOf_correct (g : GameState) : ∀ d, seerDeliveryOf g = some d →
    (∃ s, findAliveSeer g = some s ∧ s.isAlive = true ∧ s.role = some Role.seer ∧
      d.recipientId = s.id) ∧
    (∃ st t, g.seerTarget = some st ∧ lookupA g.players st = some t ∧
      d.targetId = t.id ∧ d.targetName = t.name ∧ d.targetRole = t.role) := by
  intro d h
  unfold seerDeliveryOf at h
  cases hst : g.seerTarget with
  | none => simp [hst] at h
  | some st =>
    simp only [hst] at h
    split_ifs at h with hempty
    cases hs : findAliveSeer g with
    | none => simp [hs] at h
    | some s =>
      cases ht : lookupA g.players st with
      | none => simp [hs, ht] at h
      | some t =>
        simp only [hs, ht, Option.some.injEq] at h
        have hd : d = { recipientId := s.id
                        targetId := t.id
                        targetName := t.name
                        targetRole := t.role } := h.symm
        subst hd
        have hp := List.find?_some hs
        rw [Bool.and_eq_true, decide_eq_true_eq] at hp
        exact ⟨⟨s, rfl, hp.2, hp.1, rfl⟩, ⟨st, t, rfl, ht, rfl, rfl, rfl⟩⟩

/-- C2: at the NIGHT boundary, any seer delivery goes to the first
currently-alive SEER and carries the investigated target's name and role
(and is produced whenever a non-empty seer target, an alive seer and the
target player all exist); a kill equal to the doctor's protection target
kills no one; an unprotected, existing, living kill target is marked
not-alive and is reported; and the reported death list is exactly the set
of players killed this night (empty or that single kill). -/
theorem night_resolution_spec : ∀ g : GameState,
    (∀ d, (resolveNightCore g).2.1 = some d →
      (∃ s, findAliveSeer g = some s ∧ s.isAlive = true ∧ s.role = some Role.seer ∧
        d.recipientId = s.id) ∧
      (∃ st t, g.seerTarget = some st ∧ lookupA g.players st = some t ∧
        d.targetId = t.id ∧ d.targetName = t.name ∧ d.targetRole = t.role)) ∧
    (∀ st, g.seerTarget = some st → st ≠ "" →
      (findAliveSeer g).isSome = true → (lookupA g.players st).isSome = true →
      ((resolveNightCore g).2.1).isSome = true) ∧
    (∀ kt, getWerewolfKillTarget g = some kt → g.doctorTarget = some kt →
      (resolveNightCore g).2.2 = [] ∧ (resolveNightCore g).1.players = g.players) ∧
    (∀ kt t, getWerewolfKillTarget g = some kt → kt ≠ "" → g.doctorTarget ≠ some kt →
      lookupA g.players kt = some t → t.isAlive = true →
      (resolveNightCore g).1.players = markDead g.players kt ∧
      lookupA (resolveNightCore g).1.players kt = some { t with isAlive := false } ∧
      (resolveNightCore g).2.2 = [{ id := t.id, name := t.name, role := t.role }]) ∧
    (((resolveNightCore g).2.2 = [] ∧ (resolveNightCore g).1.players = g.players) ∨
      (∃ kt t, getWerewolfKillTarget g = some kt ∧ lookupA g.players kt = some t ∧
        t.isAlive = true ∧ (resolveNightCore g).1.players = markDead g.players kt ∧
        (resolveNightCore g).2.2 = [{ id := t.id, name := t.name, role := t.role }])) := by
  intro g
  refine ⟨?_, ?_, ?_, ?_, ?_⟩
  · intro d h
    rw [resolveNightCore_delivery] at h
    exact seerDeliveryOf_correct g d h
  · intro st hst hne hseer htgt
    rw [resolveNightCore_delivery]
    unfold seerDeliveryOf
    simp only [hst]
    rw [if_neg hne]
    cases hs : findAliveSeer g with
    | none => rw [hs] at hseer; simp at hseer
    | some s =>
      cases ht : lookupA g.players st with
      | none => rw [ht] at htgt; simp at htgt
      | some t => simp [hs, ht]
  · intro kt hk hd
    unfold resolveNightCore
    simp only [hk]
    split_ifs <;> constructor <;> first | trivial | rfl
  · intro kt t hk hne hd hl ha
    unfold resolveNightCore
    simp only [hk]
    split_ifs with h1
    · exact absurd h1 hne
    · simp only [hl]
      rw [if_pos ha]
      exact ⟨rfl, lookupA_markDead g.players kt t hl, rfl⟩
  · cases hk : getWerewolfKillTarget g with
    | none =>
      left
      unfold resolveNightCore
      simp only [hk]
      constructor <;> first | trivial | rfl
    | some kt =>
      by_cases h1 : kt = ""
      · left
        unfold resolveNightCore
        simp only [hk]
        rw [if_pos h1]
        constructor <;> first | trivial | rfl
      · by_cases h2 : g.doctorTarget = some kt
        · left
          unfold resolveNightCore
          simp only [hk]
          rw [if_neg h1, if_pos h2]
          constructor <;> first | trivial | rfl
        · cases hl : lookupA g.players kt with
          | none =>
            left
            unfold resolveNightCore
            simp only [hk]
            rw [if_neg h1, if_neg h2]
            simp only [hl]
            constructor <;> first | trivial | rfl
          | some t =>
            by_cases ha : t.isAlive = true
            · right
              refine ⟨kt, t, rfl, hl, ha, ?_, ?_⟩ <;>
              · unfold resolveNightCore
                simp only [hk]
                rw [if_neg h1, if_neg h2]
                simp only [hl]
                rw [if_pos ha]
            · left
              unfold resolveNightCore
              simp only [hk]
              rw [if_neg h1, if_neg h2]
              simp only [hl]
              rw [if_neg ha]
              constructor <;> first | trivial | rfl

/-- A four-player night: the wolf w1 targets v1, the seer investigates w1,
the doctor protects d1. -/
def gNight : GameState :=
  { demoState [("w1", demoPlayer "w1" "Wolf" Role.werewolf true),
      ("v1", demoPlayer "v1" "Vic" Role.villager true),
      ("s1", demoPlayer "s1" "Sue" Role.seer true),
      ("d1", demoPlayer "d1" "Doc" Role.doctor true)] with
    phase := GamePhase.night
    werewolfVotes := [("w1", "v1")]
    seerTarget := some "w1"
    doctorTarget := some "d1" }

/-- C2 witness: in the concrete night, a seer result is produced, v1 is
marked not-alive and is the unique reported death. -/
theorem night_resolution_spec_witness :
    ((resolveNightCore gNight).2.1).isSome = true ∧
    (resolveNightCore gNight).1.players = markDead gNight.players "v1" ∧
    lookupA (resolveNightCore gNight).1.players "v1" =
      some { demoPlayer "v1" "Vic" Role.villager true with isAlive := false } ∧
    (resolveNightCore gNight).2.2 =
      [{ id := "v1", name := "Vic", role := some Role.villager }] :=
  ⟨(night_resolution_spec gNight).2.1 "w1" rfl (by decide) (by decide) (by decide),
   ((night_resolution_spec gNight).2.2.2.1 "v1" (demoPlayer "v1" "Vic" Role.villager true)
      (by decide) (by decide) (by decide) (by decide) (by decide)).1,
   ((night_resolution_spec gNight).2.2.2.1 "v1" (demoPlayer "v1" "Vic" Role.villager true)
      (by decide) (by decide) (by decide) (by decide) (by decide)).2.1,
   ((night_resolution_spec gNight).2.2.2.1 "v1" (demoPlayer "v1" "Vic" Role.villager true)
      (by decide) (by decide) (by decide) (by decide) (by decide)).2.2⟩

/-- A VOTING-phase room already at wolf-town parity with no votes cast. -/
def gVotingTie : GameState :=
  { demoState [("w1", demoPlayer "w1" "Wolf" Role.werewolf true),
      ("v1", demoPlayer "v1" "Vic" Role.villager true)] with
    phase := GamePhase.voting }

/-- C4 counterexample: in gVotingTie mafia has already won, yet the voting
boundary with no votes performs no win check: _resolve_votes returns early
and the room advances to NIGHT instead of ENDED. -/
theorem voting_tie_skips_win_check_counterexample :
    checkWinCondition gVotingTie = some Team.mafia ∧
    (resolveVotes gVotingTie).2.2 = false ∧
    (scheduledStep 0 gVotingTie).phase = GamePhase.night ∧
    (scheduledStep 0 gVotingTie).phase ≠ GamePhase.ended := by
  exact ⟨by decide, by decide, by decide, by decide⟩

lemma resolveVotes_none (g : GameState) (h : getEliminationTarget g = none) :
    resolveVotes g = (g, ElimOutcome.noMajority, false) := by
  unfold resolveVotes
  simp only [h]

lemma resolveVotes_missing (g : GameState) (tid : String)
    (h : getEliminationTarget g = some tid) (hl : lookupA g.players tid = none) :
    resolveVotes g = (g, ElimOutcome.targetMissing, false) := by
  unfold resolveVotes
  simp only [h, hl]

lemma resolveVotes_elim (g : GameState) (tid : String) (t : Player)
    (h : getEliminationTarget g = some tid) (hl : lookupA g.players tid = some t) :
    resolveVotes g =
      ((checkAndEndGame { g with players := markDead g.players tid }).1,
        ElimOutcome.eliminated t.id t.name t.role t.team,
        (checkAndEndGame { g with players := markDead g.players tid }).2) := by
  unfold resolveVotes
  simp only [h, hl]

lemma checkAndEndGame_of_winner (g : GameState) (w : Team)
    (h : checkWinCondition g = some w) :
    checkAndEndGame g =
      ({ g with phase := GamePhase.ended, phaseEndsAt := none, phaseDuration := 0 }, true) := by
  unfold checkAndEndGame
  simp only [h]

lemma checkAndEndGame_of_none (g : GameState) (h : checkWinCondition g = none) :
    checkAndEndGame g = (g, false) := by
  unfold checkAndEndGame
  simp only [h]

/-- C4 (amended): at the VOTING boundary the win condition is evaluated
only when an elimination actually occurs: after the plurality target is
marked not-alive, the boundary ends the game (room phase ENDED, no advance
to NIGHT) exactly when a team has then won, and advances to NIGHT when not;
but when no elimination occurs (tie or no votes — or a vanished target) no
win check is performed at all and the room advances to NIGHT, even if a
team has already won. -/
theorem voting_resolution_win_check_amended : ∀ (now : Nat) (g : GameState),
    g.phase = GamePhase.voting →
    (getEliminationTarget g = none →
      resolveVotes g = (g, ElimOutcome.noMajority, false) ∧
      (scheduledStep now g).phase = GamePhase.night) ∧
    (∀ tid t, getEliminationTarget g = some tid → lookupA g.players tid = some t →
      ((resolveVotes g).2.2 = true ↔
        (checkWinCondition { g with players := markDead g.players tid }).isSome = true) ∧
      ((checkWinCondition { g with players := markDead g.players tid }).isSome = true →
        (scheduledStep now g).phase = GamePhase.ended) ∧
      (checkWinCondition { g with players := markDead g.players tid } = none →
        (scheduledStep now g).phase = GamePhase.night)) := by
  intro now g hp
  constructor
  · intro hE
    have hr := resolveVotes_none g hE
    refine ⟨hr, ?_⟩
    unfold scheduledStep resolveVotesEnded
    rw [hp]
    simp [hr, nextPhase, transitionTo_phase]
  · intro tid t hE hl
    have hr := resolveVotes_elim g tid t hE hl
    cases hw : checkWinCondition { g with players := markDead g.players tid } with
    | some w =>
      have hend := checkAndEndGame_of_winner _ w hw
      refine ⟨by rw [hr, hend]; simp [hw], fun _ => ?_, fun hcontra => ?_⟩
      · unfold scheduledStep resolveVotesEnded
        rw [hp]
        simp [hr, hend, nextPhase]
      · exact absurd hcontra (Option.some_ne_none w)
    | none =>
      have hend := checkAndEndGame_of_none _ hw
      refine ⟨by rw [hr, hend]; simp [hw], fun hcontra => ?_, fun _ => ?_⟩
      · simp at hcontra
      · unfold scheduledStep resolveVotesEnded
        rw [hp]
        simp [hr, hend, nextPhase, transitionTo_phase]

/-- A VOTING-phase room where both players vote the villager v2 out,
leaving wolf-villager parity, so the game ends at the boundary. -/
def gVotingElim : GameState :=
  { demoState [("w1", demoPlayer "w1" "Wolf" Role.werewolf true),
      ("v1", demoPlayer "v1" "Vic" Role.villager true),
      ("v2", demoPlayer "v2" "Val" Role.villager true)] with
    phase := GamePhase.voting
    votes := [("w1", "v2"), ("v1", "v2")] }

/-- C4 witness: the tie room advances to NIGHT; the elimination room ends
the game and its boundary reports game-ended. -/
theorem voting_resolution_win_check_amended_witness :
    (scheduledStep 0 gVotingTie).phase = GamePhase.night ∧
    (resolveVotes gVotingElim).2.2 = true ∧
    (scheduledStep 0 gVotingElim).phase = GamePhase.ended :=
  ⟨((voting_resolution_win_check_amended 0 gVotingTie rfl).1 (by decide)).2,
   ((voting_resolution_win_check_amended 0 gVotingElim rfl).2 "v2"
      (demoPlayer "v2" "Val" Role.villager true) (by decide) (by decide)).1.mpr (by decide),
   ((voting_resolution_win_check_amended 0 gVotingElim rfl).2 "v2"
      (demoPlayer "v2" "Val" Role.villager true) (by decide) (by decide)).2.1 (by decide)⟩

lemma any_key_eq {α : Type} (l : List (String × α)) (k : String) :
    (l.any fun e => decide (e.1 = k)) = true ↔ k ∈ keysOf l := by
  rw [List.any_eq_true]
  constructor
  · rintro ⟨e, he, hd⟩
    rw [decide_eq_true_eq] at hd
    exact hd ▸ List.mem_map_of_mem Prod.fst he
  · intro hk
    rw [keysOf, List.mem_map] at hk
    obtain ⟨e, he, heq⟩ := hk
    exact ⟨e, he, by rw [decide_eq_true_eq]; exact heq⟩

lemma insertA_mem {α : Type} (l : List (String × α)) (k : String) (v : α) :
    ∀ e ∈ insertA l k v, e = (k, v) ∨ e ∈ l := by
  intro e he
  unfold insertA at he
  split_ifs at he with h
  · rw [List.mem_map] at he
    obtain ⟨e0, he0, heq⟩ := he
    by_cases h0 : e0.1 = k
    · left; rw [← heq, if_pos h0]
    · right; rw [← heq, if_neg h0]; exact he0
  · rw [List.mem_append] at he
    rcases he with he | he
    · right; exact he
    · left; simpa using he

lemma insertA_keys_nodup {α : Type} (l : List (String × α)) (k : String) (v : α)
    (h : (keysOf l).Nodup) : (keysOf (insertA l k v)).Nodup := by
  unfold insertA
  split_ifs with hc
  · have hkeys : keysOf (l.map fun e => if e.1 = k then (k, v) else e) = keysOf l := by
      unfold keysOf
      rw [List.map_map]
      apply List.map_congr_left
      intro e _
      by_cases h0 : e.1 = k
      · simp [h0]
      · simp [h0]
    rw [hkeys]
    exact h
  · have hnm : k ∉ keysOf l := fun hk => by
      rw [← any_key_eq l k] at hk
      rw [hk] at hc
      exact hc rfl
    unfold keysOf
    rw [List.map_append]
    rw [List.nodup_append]
    refine ⟨h, List.nodup_singleton k, ?_⟩
    intro a ha hb
    simp at hb
    subst hb
    exact hnm ha

lemma insertA_of_lookup_none {α : Type} (l : List (String × α)) (k : String) (v : α)
    (h : lookupA l k = none) : insertA l k v = l ++ [(k, v)] := by
  unfold insertA
  rw [if_neg]
  intro hc
  exact (lookupA_none_iff l k).mp h ((any_key_eq l k).mp hc)

lemma removeA_mem {α : Type} (l : List (String × α)) (k : String) :
    ∀ e ∈ removeA l k, e ∈ l :=
  fun e he => (List.mem_filter.mp he).1

lemma removeA_keys_nodup {α : Type} (l : List (String × α)) (k : String)
    (h : (keysOf l).Nodup) : (keysOf (removeA l k)).Nodup :=
  h.sublist ((List.filter_sublist l).map Prod.fst)

lemma lookupA_removeA_self {α : Type} (l : List (String × α)) (k : String) :
    lookupA (removeA l k) k = none := by
  rw [lookupA_none_iff]
  intro hk
  rw [keysOf, List.mem_map] at hk
  obtain ⟨e, he, heq⟩ := hk
  have := (List.mem_filter.mp he).2
  rw [decide_eq_true_eq] at this
  exact this heq

lemma removeA_eq_self_of_not_mem {α : Type} (l : List (String × α)) (k : String)
    (h : k ∉ keysOf l) : removeA l k = l := by
  induction l with
  | nil => rfl
  | cons e rest ih =>
    have hke : ¬ e.1 = k := by
      intro hc
      exact h (by rw [keysOf, List.map_cons]; exact hc ▸ List.mem_cons_self _ _)
    have hkr : k ∉ keysOf rest := by
      intro hc
      exact h (by rw [keysOf, List.map_cons]; exact List.mem_cons_of_mem _ hc)
    unfold removeA at ih ⊢
    rw [List.filter_cons]
    rw [if_pos (by rw [decide_eq_true_eq]; exact hke)]
    rw [ih hkr]

lemma hostCountL_cons (e : String × Player) (ps : List (String × Player)) :
    hostCountL (e :: ps) = (if e.2.isHost = true then 1 else 0) + hostCountL ps := by
  unfold hostCountL
  rw [List.filter_cons]
  by_cases h : e.2.isHost = true
  · rw [if_pos h, if_pos h, List.length_cons]
    omega
  · rw [if_neg h, if_neg h]
    omega

lemma hostCountL_append_single (ps : List (String × Player)) (e : String × Player) :
    hostCountL (ps ++ [e]) = hostCountL ps + (if e.2.isHost = true then 1 else 0) := by
  unfold hostCountL
  rw [List.filter_append, List.length_append]
  congr 1
  rw [List.filter_cons, List.filter_nil]
  by_cases h : e.2.isHost = true
  · rw [if_pos h, if_pos h]
    rfl
  · rw [if_neg h, if_neg h]
    rfl

lemma hostCountL_removeA (ps : List (String × Player)) (pid : String) (p : Player)
    (hnd : (keysOf ps).Nodup) (hl : lookupA ps pid = some p) :
    hostCountL (removeA ps pid) + (if p.isHost = true then 1 else 0) = hostCountL ps := by
  induction ps with
  | nil => simp [lookupA] at hl
  | cons e rest ih =>
    simp only [keysOf, List.map_cons, List.nodup_cons] at hnd
    rw [lookupA_cons] at hl
    by_cases he : e.1 = pid
    · rw [if_pos he] at hl
      have hp : e.2 = p := by simpa using hl
      have hrem : removeA (e :: rest) pid = rest := by
        unfold removeA
        rw [List.filter_cons]
        rw [if_neg (by rw [decide_eq_true_eq]; simp [he])]
        have : pid ∉ keysOf rest := he ▸ hnd.1
        have := removeA_eq_self_of_not_mem rest pid this
        unfold removeA at this
        rw [this]
      rw [hrem, hostCountL_cons, hp]
      omega
    · rw [if_neg he] at hl
      have hrem : removeA (e :: rest) pid = e :: removeA rest pid := by
        unfold removeA
        rw [List.filter_cons]
        rw [if_pos (by rw [decide_eq_true_eq]; exact he)]
      rw [hrem, hostCountL_cons, hostCountL_cons]
      have := ih hnd.2 hl
      omega

lemma setFirstHost_keys (ps : List (String × Player)) :
    keysOf (setFirstHost ps).1 = keysOf ps := by
  cases ps with
  | nil => rfl
  | cons e rest =>
    obtain ⟨k, p⟩ := e
    rfl

lemma setFirstHost_hostCount (ps : List (String × Player))
    (h : hostCountL ps = 0) (hne : ps ≠ []) : hostCountL (setFirstHost ps).1 = 1 := by
  cases ps with
  | nil => exact absurd rfl hne
  | cons e rest =>
    obtain ⟨k, p⟩ := e
    rw [hostCountL_cons] at h
    unfold setFirstHost
    rw [hostCountL_cons]
    simp only []
    have : hostCountL rest = 0 := by omega
    simp [this]

lemma getPlayerRoom_spec (m : GameManager) (pid rid : String)
    (h : getPlayerRoom m pid = some rid) :
    ∃ g, (rid, g) ∈ m.games ∧ (lookupA g.players pid).isSome = true := by
  unfold getPlayerRoom at h
  cases hf : m.games.find? (fun e => (lookupA e.2.players pid).isSome) with
  | none => rw [hf] at h; simp at h
  | some e =>
    rw [hf] at h
    obtain ⟨r0, g0⟩ := e
    have hm := List.mem_of_find?_eq_some hf
    have hp := List.find?_some hf
    simp at h
    simp only at hp
    subst h
    exact ⟨g0, hm, hp⟩

/-- C8 (amended): starting from a well-formed registry (unique keys, and
exactly one host in every non-empty room), joining a player id not already
in the room and any disconnect preserve well-formedness — in particular a
host's disconnect transfers the host flag so the surviving room again has
exactly one host — and a room whose roster empties on disconnect is removed
from the registry; leave_room, by contrast, performs no host transfer, so a
host leaving a still non-empty room leaves it with zero hosts. -/
theorem host_invariant_spec :
    (∀ (m : GameManager) (rid pid pname : String) (g : GameState),
      managerOk m → lookupA m.games rid = some g → lookupA g.players pid = none →
      managerOk (joinRoom m rid pid pname).1) ∧
    (∀ (m : GameManager) (pid : String), managerOk m →
      managerOk (disconnectPlayer m pid).1) ∧
    (∀ (m : GameManager) (pid rid : String) (g : GameState), managerOk m →
      getPlayerRoom m pid = some rid → lookupA m.games rid = some g →
      removeA g.players pid = [] →
      lookupA (disconnectPlayer m pid).1.games rid = none) := by
  refine ⟨?_, ?_, ?_⟩
  · intro m rid pid pname g hok hg hfresh
    unfold joinRoom
    simp only [hg]
    have hgok : roomOk g := hok.2 _ (mem_of_lookupA _ _ _ hg)
    constructor
    · exact insertA_keys_nodup _ _ _ hok.1
    · intro e he
      rcases insertA_mem _ _ _ e he with rfl | he'
      · have happ := insertA_of_lookup_none g.players pid
          { id := pid, name := pname, playerKind := PlayerKind.human
            isHost := decide (g.players.length = 0) } hfresh
        constructor
        · simp only [happ, keysOf, List.map_append]
          rw [List.nodup_append]
          refine ⟨hgok.1, List.nodup_singleton pid, ?_⟩
          intro a ha hb
          simp at hb
          subst hb
          exact (lookupA_none_iff _ _).mp hfresh ha
        · intro _
          show hostCountL _ = 1
          simp only [happ]
          rw [hostCountL_append_single]
          by_cases hnil : g.players = []
          · rw [hnil]
            simp [hostCountL]
          · have h1 : hostCountL g.players = 1 := hgok.2 hnil
            have hlen : ¬ g.players.length = 0 := by
              rw [List.length_eq_zero]
              exact hnil
            simp [h1, hlen]
      · exact hok.2 e he'
  · intro m pid hok
    unfold disconnectPlayer
    cases hr : getPlayerRoom m pid with
    | none => exact hok
    | some rid =>
      obtain ⟨g0, hg0mem, hg0pid⟩ := getPlayerRoom_spec m pid rid hr
      have hg0 : lookupA m.games rid = some g0 := lookupA_of_mem_nodup _ _ _ hok.1 hg0mem
      simp only [hg0]
      cases hp : lookupA g0.players pid with
      | none => rw [hp] at hg0pid; simp at hg0pid
      | some player =>
        simp only [hp]
        have hrok : roomOk g0 := hok.2 _ hg0mem
        have hne0 : g0.players ≠ [] := by
          intro hnil
          rw [hnil] at hp
          simp [lookupA] at hp
        have h1 : hostCountL g0.players = 1 := hrok.2 hne0
        have hcnt := hostCountL_removeA g0.players pid player hrok.1 hp
        split_ifs with hempty hhost
        · exact ⟨removeA_keys_nodup _ _ hok.1, fun e he => hok.2 e (removeA_mem _ _ e he)⟩
        · constructor
          · exact insertA_keys_nodup _ _ _ hok.1
          · intro e he
            rcases insertA_mem _ _ _ e he with rfl | he'
            · constructor
              · show (keysOf (setFirstHost (removeA g0.players pid)).1).Nodup
                rw [setFirstHost_keys]
                exact removeA_keys_nodup _ _ hrok.1
              · intro _
                show hostCountL (setFirstHost (removeA g0.players pid)).1 = 1
                apply setFirstHost_hostCount
                · rw [hhost] at hcnt
                  simp at hcnt
                  omega
                · intro hnil
                  rw [hnil] at hempty
                  exact hempty rfl
            · exact hok.2 e he'
        · constructor
          · exact insertA_keys_nodup _ _ _ hok.1
          · intro e he
            rcases insertA_mem _ _ _ e he with rfl | he'
            · constructor
              · exact removeA_keys_nodup _ _ hrok.1
              · intro _
                show hostCountL (removeA g0.players pid) = 1
                rw [if_neg hhost] at hcnt
                omega
            · exact hok.2 e he'
  · intro m pid rid g hok hr hg hrem
    unfold disconnectPlayer
    simp only [hr, hg]
    obtain ⟨g0, hg0mem, hg0pid⟩ := getPlayerRoom_spec m pid rid hr
    have hg0 : lookupA m.games rid = some g0 := lookupA_of_mem_nodup _ _ _ hok.1 hg0mem
    have hgg : g0 = g := by
      rw [hg0] at hg
      simpa using hg
    subst hgg
    cases hp : lookupA g0.players pid with
    | none => rw [hp] at hg0pid; simp at hg0pid
    | some player =>
      simp only [hp, hrem, List.length_nil, if_pos rfl]
      exact lookupA_removeA_self _ _

/-- An empty registry with one created room r. -/
def m0 : GameManager := createRoom { games := [] } "r"

/-- The registry after Alice joins room r (she becomes host). -/
def m1 : GameManager := (joinRoom m0 "r" "p1" "Alice").1

/-- The registry after Bob also joins room r. -/
def m2 : GameManager := (joinRoom m1 "r" "p2" "Bob").1

/-- The registry after the host Alice leaves room r via leave_room. -/
def m3 : GameManager := leaveRoom m2 "r" "p1"

/-- Room r as it stands after the host left: Bob alone, not host. -/
def roomAfterLeave : GameState :=
  { roomId := "r"
    players := [("p2", { id := "p2", name := "Bob", playerKind := PlayerKind.human })] }

/-- C8 counterexample: after the host of the 2-player room r leaves via
leave_room, the room survives non-empty but holds zero hosts — leave_room
performs no host transfer, so the exactly-one-host claim fails for leave. -/
theorem host_leave_counterexample :
    lookupA m3.games "r" = some roomAfterLeave ∧
    roomAfterLeave.players ≠ [] ∧
    hostCount roomAfterLeave = 0 := by
  exact ⟨by decide, by decide, by decide⟩

/-- Room r with only Alice, the host. -/
def room1Val : GameState :=
  { roomId := "r"
    players := [("p1", { id := "p1", name := "Alice", playerKind := PlayerKind.human
                         isHost := true })] }

/-- Room r after Alice's disconnect promoted Bob to host. -/
def roomBobHost : GameState :=
  { roomId := "r"
    players := [("p2", { id := "p2", name := "Bob", playerKind := PlayerKind.human
                         isHost := true })] }

/-- C8 witness: disconnecting the host of the 2-player room keeps the
registry well-formed and promotes Bob to sole host; the 1-player room's
disconnect deletes room r from the registry; a fresh join preserves
well-formedness. -/
theorem host_invariant_spec_witness :
    managerOk (disconnectPlayer m2 "p1").1 ∧
    (disconnectPlayer m2 "p1").1.games = [("r", roomBobHost)] ∧
    hostCount roomBobHost = 1 ∧
    (disconnectPlayer m2 "p1").2 =
      some { playerId := "p1", playerName := "Alice", roomId := "r", newHostId := some "p2" } ∧
    lookupA (disconnectPlayer m1 "p1").1.games "r" = none ∧
    managerOk (joinRoom m1 "r" "p2" "Bob").1 :=
  ⟨host_invariant_spec.2.1 m2 "p1" (by decide),
   by decide, by decide, by decide,
   host_invariant_spec.2.2 m1 "p1" "r" room1Val (by decide) (by decide) (by decide)
     (by decide),
   host_invariant_spec.1 m1 "r" "p2" "Bob" room1Val (by decide) (by decide) (by decide)⟩

end Imitation
